import Mathlib

set_option autoImplicit false

namespace DistributionProxy

/-! Shallow embedding of the pull-through caching registry proxy:
the blob HTTP handler (registry/handlers/blob.go), the proxying registry
(registry/proxy/proxyregistry.go), and the local content-addressable blob
store exercised by registry/storage/blob_test.go. Pure Go functions become
Lean functions; stateful code is explicit state passing; Go maps become
association lists with first-match lookup and replacing insert; fallible
code returns Except or Option. -/

/-- Canonical content address: an algorithm-qualified digest, compared
bit-exactly on its canonical form. -/
structure Digest where
  algo : String
  hex : String
deriving DecidableEq, Repr

/-- Descriptor record of the distribution data model: media type, size,
digest and an annotations map (association list, Go map semantics). -/
structure Descriptor where
  mediaType : String
  size : Nat
  digest : Digest
  annotations : List (String × String)
deriving DecidableEq, Repr

/-- Go zero value of Descriptor (distribution.Descriptor\x7b\x7d). -/
def Descriptor.empty : Descriptor :=
  { mediaType := "", size := 0, digest := { algo := "", hex := "" }, annotations := [] }

/-- First-match lookup in an association list (Go map read). -/
def lookupA {α β : Type} [DecidableEq α] : List (α × β) → α → Option β
  | [], _ => none
  | (k, v) :: rest, a => if k = a then some v else lookupA rest a

/-- Replacing insert in an association list (Go map assignment). -/
def insertA {α β : Type} [DecidableEq α] : List (α × β) → α → β → List (α × β)
  | [], a, b => [(a, b)]
  | (k, v) :: rest, a, b => if k = a then (a, b) :: rest else (k, v) :: insertA rest a b

/-! ## HTTP blob handler (registry/handlers/blob.go) -/

/-- Outcome of the blob service Stat call as observed by the handler. -/
inductive StatOutcome where
  | found (desc : Descriptor)
  | errBlobUnknown
  | errOther (msg : String)
deriving DecidableEq, Repr

/-- Outcome of the blob service Create call issued with the mount option:
either a blob writer is returned (the upload path has started), or the call
fails with the ErrBlobMounted sentinel carrying the mounted descriptor, or
it fails with some other error. -/
inductive CreateOutcome where
  | writer
  | errBlobMounted (desc : Descriptor)
  | errOther (msg : String)
deriving DecidableEq, Repr

/-- Action taken by the GetBlob handler: invoke ServeBlob with a digest, or
append an error to the response and serve nothing. -/
inductive GetBlobAction where
  | serve (dgst : Digest)
  | respondBlobUnknown
  | respondUnknownError
deriving DecidableEq, Repr

/-- Shallow embedding of blobHandler.GetBlob (registry/handlers/blob.go).
Stat and Create results are passed as observed outcomes of the blob service
calls. Returns the handler action together with whether the auto-mount
Create(WithMount, WithoutUpload) call was attempted. -/
def getBlob (dgst : Digest) (stat : StatOutcome) (create : CreateOutcome) :
    GetBlobAction × Bool :=
  match stat with
  | .found desc => (.serve desc.digest, false)
  | .errBlobUnknown =>
    match create with
    | .errBlobMounted _ => (.serve dgst, true)
    | .errOther _ => (.respondBlobUnknown, true)
    | .writer => (.respondBlobUnknown, true)
  | .errOther _ => (.respondUnknownError, false)

/-- Result of getDigest as observed by blobDispatcher: a parsed digest,
the digest-not-available error, or another parse error. -/
inductive DigestParse where
  | parsed (d : Digest)
  | errNotAvailable
  | errInvalid (msg : String)
deriving DecidableEq, Repr

/-- HTTP methods relevant to the blob endpoint. -/
inductive Method where
  | get
  | head
  | delete
  | put
  | post
  | patch
deriving DecidableEq, Repr

/-- Handlers registrable in the blob method handler map. -/
inductive BlobMethodHandler where
  | getBlobHandler
  | deleteBlobHandler
deriving DecidableEq, Repr

/-- What the dispatched handler does for a given method: run a registered
handler, respond DigestInvalid, or (MethodHandler default) respond
method-not-allowed. -/
inductive DispatchOutcome where
  | handle (h : BlobMethodHandler)
  | respondDigestInvalid
  | methodNotAllowed
deriving DecidableEq, Repr

/-- Shallow embedding of blobDispatcher (registry/handlers/blob.go): with a
parsed digest it builds a method handler mapping GET and HEAD to GetBlob and,
unless the registry context is read-only, DELETE to DeleteBlob; on either
digest parse failure it returns a handler appending DigestInvalid for every
method. -/
def blobDispatcher (parse : DigestParse) (readOnly : Bool) :
    Method → DispatchOutcome :=
  match parse with
  | .parsed _ => fun m =>
    match m with
    | .get => .handle .getBlobHandler
    | .head => .handle .getBlobHandler
    | .delete => if readOnly then .methodNotAllowed else .handle .deleteBlobHandler
    | _ => .methodNotAllowed
  | .errNotAvailable => fun _ => .respondDigestInvalid
  | .errInvalid _ => fun _ => .respondDigestInvalid

/-! ## Descriptor cache and setPublic (registry/proxy/proxyregistry.go) -/

/-- The blob descriptor cache service: digest-keyed descriptors. -/
abbrev DescCache := List (Digest × Descriptor)

/-- Descriptor returned by the cache Stat in setPublic: the cached
descriptor, or the Go zero descriptor when Stat yields ErrBlobUnknown. -/
def cachedDesc (cache : DescCache) (dgst : Digest) : Descriptor :=
  match lookupA cache dgst with
  | some d => d
  | none => Descriptor.empty

/-- Whether the cached descriptor for a digest holds an entry under the
annotations key "public". -/
def hasPublicTag (cache : DescCache) (dgst : Digest) : Bool :=
  (lookupA (cachedDesc cache dgst).annotations "public").isSome

/-- Shallow embedding of proxyingRegistry.setPublic: Stat the descriptor
cache (ErrBlobUnknown becomes the zero descriptor); if the annotations map
already has a "public" key return false without writing; otherwise replace
the annotations map by the single entry public=true, store the descriptor,
and return true. -/
def setPublic (cache : DescCache) (dgst : Digest) : Bool × DescCache :=
  let desc := cachedDesc cache dgst
  match lookupA desc.annotations "public" with
  | some _ => (false, cache)
  | none => (true, insertA cache dgst { desc with annotations := [("public", "true")] })

/-- Shallow embedding of proxyingRegistry.setBlobsPublic: enumerate the
blobs of the embedded local namespace (given as the list of their digests)
and apply setPublic to each. The pure cache model makes setPublic total, so
the enumeration never aborts early. -/
def setBlobsPublic (cache : DescCache) (blobs : List Digest) : DescCache :=
  blobs.foldl (fun acc d => (setPublic acc d).2) cache

/-! ## Remote auth challenger (registry/proxy/proxyregistry.go) -/

/-- Upstream URL, reduced to the fields tryEstablishChallenges touches. -/
structure URL where
  scheme : String
  host : String
  path : String
deriving DecidableEq, Repr

/-- An authentication challenge parsed from WWW-Authenticate headers. -/
structure Challenge where
  scheme : String
  parameters : List (String × String)
deriving DecidableEq, Repr

/-- The challenge manager state: challenge sets keyed by URL. -/
abbrev ChallengeMap := List (URL × List Challenge)

/-- remoteAuthChallenger state: the upstream URL and the challenge manager
(the mutex serializes calls and is not part of the functional state). -/
structure RemoteAuthChallenger where
  remoteURL : URL
  cm : ChallengeMap
deriving DecidableEq, Repr

/-- GetChallenges on the simple challenge manager: the stored challenge set
for the URL, empty when the URL is unknown. -/
def getChallenges (cm : ChallengeMap) (u : URL) : List Challenge :=
  match lookupA cm u with
  | some cs => cs
  | none => []

/-- Shallow embedding of remoteAuthChallenger.tryEstablishChallenges. The
unauthenticated GET ping to upstream is an oracle parameter (the HTTP client
is outside the embedded state): on success it yields the challenge set the
ping registers with the manager, on failure the error the ping returns.
Result: the returned error or success, whether a ping was issued, and the
updated challenger state. -/
def tryEstablishChallenges (r : RemoteAuthChallenger)
    (pingResult : Except String (List Challenge)) :
    Except String Unit × Bool × RemoteAuthChallenger :=
  let u : URL := { r.remoteURL with path := "/v2/" }
  if (getChallenges r.cm u).length > 0 then
    (Except.ok (), false, r)
  else
    match pingResult with
    | Except.error e => (Except.error e, true, r)
    | Except.ok cs => (Except.ok (), true, { r with cm := insertA r.cm u cs })

/-! ## Scheduler expiry callbacks (registry/proxy/proxyregistry.go) -/

/-- A reference: canonical (repository plus digest) or tag-based. Only
canonical references are valid in scheduler entries. -/
inductive Ref where
  | canonical (repo : String) (dgst : Digest)
  | tagged (repo : String) (tag : String)
deriving DecidableEq, Repr

/-- State of the embedded local registry as touched by the expiry
callbacks: per-repository blob links, per-repository descriptor-cache
entries, backing-storage blob content (the vacuum target), and
per-repository manifests. -/
structure LocalRegistry where
  blobLinks : List (String × Digest)
  blobDescCache : List ((String × Digest) × Descriptor)
  storageBlobs : List Digest
  manifests : List (String × Digest)
deriving DecidableEq, Repr

/-- Modelled from the spec: the repository blob store Delete (implementation
not under src/) removes the repository link and clears the descriptor-cache
entries for that repository and digest, failing with ErrBlobUnknown when the
blob is not linked in the repository. -/
def blobsDelete (st : LocalRegistry) (repo : String) (dgst : Digest) :
    Except String LocalRegistry :=
  if (repo, dgst) ∈ st.blobLinks then
    Except.ok { st with
      blobLinks := st.blobLinks.filter (fun p => p ≠ (repo, dgst)),
      blobDescCache := st.blobDescCache.filter (fun p => p.1 ≠ (repo, dgst)) }
  else Except.error "blob unknown"

/-- Modelled from the spec: vacuum.RemoveBlob (implementation not under
src/) removes the blob content from backing storage. -/
def vacuumRemoveBlob (st : LocalRegistry) (dgst : Digest) :
    Except String LocalRegistry :=
  Except.ok { st with storageBlobs := st.storageBlobs.filter (fun d => d ≠ dgst) }

/-- Modelled from the spec: the repository manifest store Delete
(implementation not under src/) removes the manifest from the repository,
failing when it is absent. -/
def manifestsDelete (st : LocalRegistry) (repo : String) (dgst : Digest) :
    Except String LocalRegistry :=
  if (repo, dgst) ∈ st.manifests then
    Except.ok { st with manifests := st.manifests.filter (fun p => p ≠ (repo, dgst)) }
  else Except.error "manifest unknown"

/-- Shallow embedding of the OnBlobExpire callback registered in
NewRegistryPullThroughCache: reject non-canonical references, otherwise
delete the blob from the repository blob store and then remove its content
from backing storage via the vacuum. An error result means no state change
is applied. -/
def onBlobExpire (st : LocalRegistry) (ref : Ref) : Except String LocalRegistry :=
  match ref with
  | .tagged _ _ => Except.error "unexpected reference type"
  | .canonical repo dgst =>
    match blobsDelete st repo dgst with
    | Except.error e => Except.error e
    | Except.ok st1 => vacuumRemoveBlob st1 dgst

/-- Shallow embedding of the OnManifestExpire callback registered in
NewRegistryPullThroughCache: reject non-canonical references, otherwise
delete the manifest from the repository manifest store. -/
def onManifestExpire (st : LocalRegistry) (ref : Ref) : Except String LocalRegistry :=
  match ref with
  | .tagged _ _ => Except.error "unexpected reference type"
  | .canonical repo dgst => manifestsDelete st repo dgst

/-! ## Repository construction wiring (registry/proxy/proxyregistry.go) -/

/-- Opaque handles for the per-repository services built from the embedded
namespace or the remote registry client. -/
inductive ServiceRef where
  | localBlobs (embedded : Nat) (name : String)
  | remoteBlobs (remote : URL) (name : String)
  | localManifests (embedded : Nat) (name : String)
  | remoteManifests (remote : URL) (name : String)
  | localTags (embedded : Nat) (name : String)
  | remoteTags (remote : URL) (name : String)
deriving DecidableEq, Repr

/-- A repository-scoped token scope (auth.RepositoryScope). -/
structure RepositoryScope where
  repository : String
  actions : List String
deriving DecidableEq, Repr

/-- Token handler options used to build the upstream transport: the
credential store handle and the scope list. -/
structure TokenHandlerOptions where
  credentials : Nat
  scopes : List RepositoryScope
deriving DecidableEq, Repr

/-- proxyingRegistry configuration, with opaque handles (Nat) for the
embedded namespace, the shared scheduler, the shared auth challenger and
its credential store. -/
structure ProxyingRegistryCfg where
  embedded : Nat
  scheduler : Nat
  remoteURL : URL
  authChallenger : Nat
  challengerCredentials : Nat
deriving DecidableEq, Repr

/-- proxyBlobStore wiring as built by Repository. -/
structure ProxyBlobStoreCfg where
  localStore : ServiceRef
  remoteStore : ServiceRef
  scheduler : Nat
  repositoryName : String
  authChallenger : Nat
deriving DecidableEq, Repr

/-- proxyManifestStore wiring as built by Repository. -/
structure ProxyManifestStoreCfg where
  repositoryName : String
  localManifests : ServiceRef
  remoteManifests : ServiceRef
  scheduler : Nat
  authChallenger : Nat
deriving DecidableEq, Repr

/-- proxyTagService wiring as built by Repository. -/
structure ProxyTagServiceCfg where
  localTags : ServiceRef
  remoteTags : ServiceRef
  authChallenger : Nat
deriving DecidableEq, Repr

/-- proxiedRepository: the composed per-repository services. -/
structure ProxiedRepositoryCfg where
  blobStore : ProxyBlobStoreCfg
  manifests : ProxyManifestStoreCfg
  name : String
  tags : ProxyTagServiceCfg
deriving DecidableEq, Repr

/-- Shallow embedding of proxyingRegistry.Repository: builds the token
handler options for the upstream transport (credentials from the shared
challenger, a single repository scope for the name with the single action
pull) and composes the per-repository blob, manifest and tag services wired
to the shared scheduler and shared auth challenger. -/
def mkRepository (pr : ProxyingRegistryCfg) (name : String) :
    TokenHandlerOptions × ProxiedRepositoryCfg :=
  let tkopts : TokenHandlerOptions :=
    { credentials := pr.challengerCredentials,
      scopes := [{ repository := name, actions := ["pull"] }] }
  (tkopts,
   { blobStore :=
       { localStore := .localBlobs pr.embedded name,
         remoteStore := .remoteBlobs pr.remoteURL name,
         scheduler := pr.scheduler,
         repositoryName := name,
         authChallenger := pr.authChallenger },
     manifests :=
       { repositoryName := name,
         localManifests := .localManifests pr.embedded name,
         remoteManifests := .remoteManifests pr.remoteURL name,
         scheduler := pr.scheduler,
         authChallenger := pr.authChallenger },
     name := name,
     tags :=
       { localTags := .localTags pr.embedded name,
         remoteTags := .remoteTags pr.remoteURL name,
         authChallenger := pr.authChallenger } })

/-! ## Local content-addressable blob store (exercised by
registry/storage/blob_test.go; the implementation is not under src/, so it
is modelled from the spec). -/

/-- Modelled from the spec: stand-in for the content digest function. The
real digest algorithm (sha256) is an external library and out of scope; the
claims use the digest only as a function of the bytes, keyed bit-exactly. -/
def hashBytes (b : List Nat) : Digest :=
  { algo := "sha256",
    hex := String.mk (Nat.toDigits 16 (b.foldl (fun a c => (a * 131 + c) % (2 ^ 64)) 5381)) }

/-- Modelled from the spec: state of the local blob store. Content is
stored once, keyed by digest; repositories hold links into it; the
descriptor cache carries the public annotations consulted by automatic
content discovery. -/
structure BlobStoreState where
  contents : List (Digest × List Nat)
  links : List (String × Digest)
  publicCache : DescCache
deriving DecidableEq, Repr

/-- Descriptor under which a committed blob is stated and served: media
type application/octet-stream, the byte length, the digest, no
annotations. -/
def canonicalDesc (dgst : Digest) (bytes : List Nat) : Descriptor :=
  { mediaType := "application/octet-stream", size := bytes.length,
    digest := dgst, annotations := [] }

/-- Errors of the modelled blob store. -/
inductive BlobErr where
  | blobUnknown
  | digestInvalid
deriving DecidableEq, Repr

/-- Modelled from the spec: repository-scoped Stat — the canonical
descriptor when the repository links the digest and the content is present,
ErrBlobUnknown otherwise. -/
def statBlob (st : BlobStoreState) (repo : String) (dgst : Digest) :
    Except BlobErr Descriptor :=
  if (repo, dgst) ∈ st.links then
    match lookupA st.contents dgst with
    | some bs => Except.ok (canonicalDesc dgst bs)
    | none => Except.error .blobUnknown
  else Except.error .blobUnknown

/-- Modelled from the spec: repository-scoped Open, returning the blob
bytes when the repository links the digest and the content is present. -/
def openBlob (st : BlobStoreState) (repo : String) (dgst : Digest) :
    Except BlobErr (List Nat) :=
  if (repo, dgst) ∈ st.links then
    match lookupA st.contents dgst with
    | some bs => Except.ok bs
    | none => Except.error .blobUnknown
  else Except.error .blobUnknown

/-- Modelled from the spec: the create-write-commit upload pipeline
(Create, write the bytes, Commit with a requested digest). The bytes are
written to the store only if their computed digest equals the requested
digest; on success the content is stored, the repository link added, and
the canonical descriptor returned. -/
def uploadCommit (st : BlobStoreState) (repo : String) (bytes : List Nat)
    (requested : Digest) : Except BlobErr (Descriptor × BlobStoreState) :=
  if hashBytes bytes = requested then
    Except.ok (canonicalDesc requested bytes,
      { st with contents := insertA st.contents requested bytes,
                links := (repo, requested) :: st.links })
  else Except.error .digestInvalid

/-- Whether the descriptor cache marks a digest with the annotation
public=true, making it eligible for automatic content discovery. -/
def isPublicBlob (st : BlobStoreState) (dgst : Digest) : Bool :=
  match lookupA st.publicCache dgst with
  | some d => lookupA d.annotations "public" == some "true"
  | none => false

/-- Outcome of Create with the mount option: either the blob was linked
into the repository and the ErrBlobMounted sentinel carries the mounted
descriptor, or a plain blob writer starts an upload. -/
inductive MountOutcome where
  | mounted (desc : Descriptor) (st : BlobStoreState)
  | writer (st : BlobStoreState)
deriving DecidableEq, Repr

/-- Modelled from the spec: Create with the mount option under automatic
content discovery — if the digest is known with the annotation public=true
and its content is present, link it into the target repository and signal
the ErrBlobMounted sentinel carrying the mounted descriptor; otherwise fall
back to a plain upload writer. -/
def createWithMount (st : BlobStoreState) (repo : String) (dgst : Digest) :
    MountOutcome :=
  if isPublicBlob st dgst then
    match lookupA st.contents dgst with
    | some bs => .mounted (canonicalDesc dgst bs) { st with links := (repo, dgst) :: st.links }
    | none => .writer st
  else .writer st

/-- Modelled from the spec: repository-scoped Delete removes this
repository's link to the digest; the shared content is untouched (the
vacuum, not Delete, removes content). ErrBlobUnknown when not linked. -/
def deleteBlob (st : BlobStoreState) (repo : String) (dgst : Digest) :
    Except BlobErr BlobStoreState :=
  if (repo, dgst) ∈ st.links then
    Except.ok { st with links := st.links.filter (fun p => p ≠ (repo, dgst)) }
  else Except.error .blobUnknown

/-- Mark a blob public by applying setPublic to the store's descriptor
cache. -/
def markPublic (st : BlobStoreState) (dgst : Digest) : BlobStoreState :=
  { st with publicCache := (setPublic st.publicCache dgst).2 }

/-- Concrete sample digest used by witnesses. -/
def dgst0 : Digest := { algo := "sha256", hex := "d0" }

/-- Empty modelled blob store, used by witnesses. -/
def emptyStore : BlobStoreState := { contents := [], links := [], publicCache := [] }

/-- Concrete upstream URL used by witnesses. -/
def urlUp : URL := { scheme := "https", host := "upstream.example", path := "" }

/-- The ping endpoint URL of urlUp, used by witnesses. -/
def urlV2 : URL := { scheme := "https", host := "upstream.example", path := "/v2/" }

/-- Concrete challenge used by witnesses. -/
def ch0 : Challenge := { scheme := "bearer", parameters := [("realm", "r")] }

/-- Challenger with no known challenges, used by witnesses. -/
def rEmpty : RemoteAuthChallenger := { remoteURL := urlUp, cm := [] }

/-- Challenger already holding a challenge set for the ping endpoint, used
by witnesses. -/
def rKnown : RemoteAuthChallenger := { remoteURL := urlUp, cm := [(urlV2, [ch0])] }

/-- Concrete local registry state used by witnesses. -/
def reg0 : LocalRegistry :=
  { blobLinks := [("foo", dgst0)],
    blobDescCache := [(("foo", dgst0), Descriptor.empty)],
    storageBlobs := [dgst0],
    manifests := [("foo", dgst0)] }

/-- Concrete blob store with one blob linked under two repositories, used
by witnesses. -/
def storeC8 : BlobStoreState :=
  { contents := [(dgst0, [1])], links := [("foo", dgst0), ("bar", dgst0)], publicCache := [] }

/-! ## Association list lemmas -/

theorem lookupA_insertA_self {α β : Type} [DecidableEq α] (l : List (α × β)) (a : α) (v : β) :
    lookupA (insertA l a v) a = some v := by
  induction l with
  | nil => simp [insertA, lookupA]
  | cons p rest ih =>
    obtain ⟨k, w⟩ := p
    by_cases h : k = a <;> simp [insertA, lookupA, h, ih]

theorem lookupA_insertA_ne {α β : Type} [DecidableEq α] (l : List (α × β)) (a b : α) (v : β)
    (h : b ≠ a) : lookupA (insertA l a v) b = lookupA l b := by
  have hab : ¬ a = b := fun he => h he.symm
  induction l with
  | nil => simp [insertA, lookupA, hab]
  | cons p rest ih =>
    obtain ⟨k, w⟩ := p
    by_cases hk : k = a
    · subst hk
      simp [insertA, lookupA, hab]
    · simp [insertA, lookupA, hk, ih]

/-! ## setPublic lemmas -/

theorem hasPublicTag_eq_of_lookup (c1 c2 : DescCache) (d : Digest)
    (h : lookupA c1 d = lookupA c2 d) : hasPublicTag c1 d = hasPublicTag c2 d := by
  simp [hasPublicTag, cachedDesc, h]

theorem setPublic_of_hasPublic (cache : DescCache) (d : Digest)
    (h : hasPublicTag cache d = true) : setPublic cache d = (false, cache) := by
  cases hl : lookupA (cachedDesc cache d).annotations "public" with
  | some v => simp [setPublic, hl]
  | none => simp [hasPublicTag, hl] at h

theorem setPublic_snd_of_not_hasPublic (cache : DescCache) (d : Digest)
    (h : hasPublicTag cache d = false) :
    setPublic cache d =
      (true, insertA cache d { cachedDesc cache d with annotations := [("public", "true")] }) := by
  cases hl : lookupA (cachedDesc cache d).annotations "public" with
  | some v => simp [hasPublicTag, hl] at h
  | none => simp [setPublic, hl]

theorem hasPublicTag_setPublic_self (cache : DescCache) (d : Digest) :
    hasPublicTag (setPublic cache d).2 d = true := by
  cases hl : lookupA (cachedDesc cache d).annotations "public" with
  | some v =>
    have hs := setPublic_of_hasPublic cache d (by simp [hasPublicTag, hl])
    rw [hs]
    simp [hasPublicTag, hl]
  | none =>
    have hs := setPublic_snd_of_not_hasPublic cache d (by simp [hasPublicTag, hl])
    rw [hs]
    simp [hasPublicTag, cachedDesc, lookupA_insertA_self, lookupA]

theorem lookupA_setPublic_ne (cache : DescCache) (d e : Digest) (h : d ≠ e) :
    lookupA (setPublic cache e).2 d = lookupA cache d := by
  cases hl : lookupA (cachedDesc cache e).annotations "public" with
  | some v => simp [setPublic, hl]
  | none =>
    have hs : setPublic cache e =
        (true, insertA cache e { cachedDesc cache e with annotations := [("public", "true")] }) := by
      simp [setPublic, hl]
    rw [hs]
    exact lookupA_insertA_ne _ _ _ _ h

theorem lookupA_setPublic_of_public (cache : DescCache) (d : Digest) (desc : Descriptor)
    (hd : lookupA cache d = some desc)
    (hp : (lookupA desc.annotations "public").isSome = true) (e : Digest) :
    lookupA (setPublic cache e).2 d = some desc := by
  by_cases hde : d = e
  · subst hde
    have ht : hasPublicTag cache d = true := by simp [hasPublicTag, cachedDesc, hd, hp]
    rw [setPublic_of_hasPublic cache d ht]
    exact hd
  · rw [lookupA_setPublic_ne cache d e hde]
    exact hd

theorem lookupA_setBlobsPublic_of_public (blobs : List Digest) (d : Digest) (desc : Descriptor)
    (hp : (lookupA desc.annotations "public").isSome = true) :
    ∀ cache : DescCache, lookupA cache d = some desc →
      lookupA (setBlobsPublic cache blobs) d = some desc := by
  induction blobs with
  | nil => intro cache hd; exact hd
  | cons a rest ih =>
    intro cache hd
    exact ih ((setPublic cache a).2) (lookupA_setPublic_of_public cache d desc hd hp a)

theorem hasPublicTag_setBlobsPublic_of (blobs : List Digest) (d : Digest) :
    ∀ cache : DescCache, hasPublicTag cache d = true →
      hasPublicTag (setBlobsPublic cache blobs) d = true := by
  induction blobs with
  | nil => intro cache h; exact h
  | cons a rest ih =>
    intro cache h
    refine ih ((setPublic cache a).2) ?_
    cases hd : lookupA cache d with
    | none => simp [hasPublicTag, cachedDesc, hd, lookupA] at h
    | some desc =>
      have hp : (lookupA desc.annotations "public").isSome = true := by
        simpa [hasPublicTag, cachedDesc, hd] using h
      have hl := lookupA_setPublic_of_public cache d desc hd hp a
      simp [hasPublicTag, cachedDesc, hl, hp]

theorem setBlobsPublic_mem_hasPublic (blobs : List Digest) (d : Digest) :
    ∀ cache : DescCache, d ∈ blobs → hasPublicTag (setBlobsPublic cache blobs) d = true := by
  induction blobs with
  | nil => intro cache hmem; cases hmem
  | cons a rest ih =>
    intro cache hmem
    by_cases hda : d = a
    · subst hda
      exact hasPublicTag_setBlobsPublic_of rest d ((setPublic cache d).2)
        (hasPublicTag_setPublic_self cache d)
    · have hmem2 : d ∈ rest := by
        rcases List.mem_cons.mp hmem with h | h
        · exact absurd h hda
        · exact h
      exact ih ((setPublic cache a).2) hmem2

theorem setBlobsPublic_mem_fresh (blobs : List Digest) (d : Digest) :
    ∀ cache : DescCache, d ∈ blobs → hasPublicTag cache d = false →
      lookupA (setBlobsPublic cache blobs) d =
        some { cachedDesc cache d with annotations := [("public", "true")] } := by
  induction blobs with
  | nil => intro cache hmem hfalse; cases hmem
  | cons a rest ih =>
    intro cache hmem hfalse
    by_cases hda : d = a
    · subst hda
      have hs := setPublic_snd_of_not_hasPublic cache d hfalse
      have hd2 : lookupA ((setPublic cache d).2) d =
          some { cachedDesc cache d with annotations := [("public", "true")] } := by
        rw [hs]
        exact lookupA_insertA_self _ _ _
      have hp : (lookupA ({ cachedDesc cache d with
          annotations := [("public", "true")] } : Descriptor).annotations "public").isSome = true := by
        simp [lookupA]
      exact lookupA_setBlobsPublic_of_public rest d _ hp ((setPublic cache d).2) hd2
    · have hmem2 : d ∈ rest := by
        rcases List.mem_cons.mp hmem with h | h
        · exact absurd h hda
        · exact h
      have hlook : lookupA ((setPublic cache a).2) d = lookupA cache d :=
        lookupA_setPublic_ne cache d a hda
      have hfalse2 : hasPublicTag ((setPublic cache a).2) d = false := by
        rw [hasPublicTag_eq_of_lookup _ _ _ hlook]
        exact hfalse
      have hres := ih ((setPublic cache a).2) hmem2 hfalse2
      have hcd : cachedDesc ((setPublic cache a).2) d = cachedDesc cache d := by
        simp [cachedDesc, hlook]
      rw [hcd] at hres
      exact hres

/-! ## Claim theorems -/

/-- Claim C1: on a blob GET whose Stat returns ErrBlobUnknown, the handler
attempts the auto-mount Create call; it proceeds to ServeBlob if and only
if that call fails with the ErrBlobMounted sentinel, and on any other
outcome (another error, or a returned blob writer) it responds BlobUnknown
and serves nothing. -/
theorem getBlob_automount (dgst : Digest) (create : CreateOutcome) :
    (getBlob dgst .errBlobUnknown create).2 = true ∧
    ((∃ a, (getBlob dgst .errBlobUnknown create).1 = GetBlobAction.serve a) ↔
      (∃ d, create = CreateOutcome.errBlobMounted d)) ∧
    ((∃ d, create = CreateOutcome.errBlobMounted d) →
      getBlob dgst .errBlobUnknown create = (.serve dgst, true)) ∧
    ((∀ d, create ≠ CreateOutcome.errBlobMounted d) →
      getBlob dgst .errBlobUnknown create = (.respondBlobUnknown, true)) := by
  refine ⟨?_, ?_, ?_, ?_⟩
  · cases create <;> rfl
  · cases create <;> simp [getBlob]
  · rintro ⟨d, rfl⟩; rfl
  · intro h
    cases create with
    | writer => rfl
    | errBlobMounted d => exact absurd rfl (h d)
    | errOther m => rfl

theorem getBlob_automount_witness :
    getBlob dgst0 .errBlobUnknown (.errBlobMounted Descriptor.empty) = (.serve dgst0, true) ∧
    getBlob dgst0 .errBlobUnknown .writer = (.respondBlobUnknown, true) :=
  ⟨(getBlob_automount dgst0 (.errBlobMounted Descriptor.empty)).2.2.1 ⟨Descriptor.empty, rfl⟩,
   (getBlob_automount dgst0 .writer).2.2.2 (fun _ h => nomatch h)⟩

/-- Claim C9: with a parsed digest the dispatcher serves GET and HEAD via
the same GetBlob handler and registers DELETE exactly when the registry is
not read-only; with an unavailable or invalid digest it responds
DigestInvalid for every method. -/
theorem blobDispatcher_spec (parse : DigestParse) (readOnly : Bool) :
    ((∃ d, parse = DigestParse.parsed d) →
      blobDispatcher parse readOnly .get = .handle .getBlobHandler ∧
      blobDispatcher parse readOnly .head = .handle .getBlobHandler ∧
      (blobDispatcher parse readOnly .delete = .handle .deleteBlobHandler ↔ readOnly = false)) ∧
    ((∀ d, parse ≠ DigestParse.parsed d) →
      ∀ m, blobDispatcher parse readOnly m = .respondDigestInvalid) := by
  constructor
  · rintro ⟨d, rfl⟩
    refine ⟨rfl, rfl, ?_⟩
    cases readOnly <;> simp [blobDispatcher]
  · intro h m
    cases parse with
    | parsed d => exact absurd rfl (h d)
    | errNotAvailable => rfl
    | errInvalid m2 => rfl

theorem blobDispatcher_spec_witness :
    blobDispatcher (.parsed dgst0) false .get = .handle .getBlobHandler ∧
    blobDispatcher .errNotAvailable true .put = .respondDigestInvalid :=
  ⟨((blobDispatcher_spec (.parsed dgst0) false).1 ⟨dgst0, rfl⟩).1,
   (blobDispatcher_spec .errNotAvailable true).2 (fun _ h => nomatch h) .put⟩

/-- Claim C10: setPublic returns false and leaves the cache unchanged when
the cached descriptor already holds a "public" annotations key; otherwise
it stores a descriptor whose annotations map is exactly public=true
(replacing any previous annotations) without touching other digests, and a
second consecutive call performs no write. -/
theorem setPublic_idempotent (cache : DescCache) (dgst : Digest) :
    (hasPublicTag cache dgst = true → setPublic cache dgst = (false, cache)) ∧
    (hasPublicTag cache dgst = false →
      (setPublic cache dgst).1 = true ∧
      lookupA (setPublic cache dgst).2 dgst =
        some { cachedDesc cache dgst with annotations := [("public", "true")] } ∧
      ∀ e, e ≠ dgst → lookupA (setPublic cache dgst).2 e = lookupA cache e) ∧
    setPublic (setPublic cache dgst).2 dgst = (false, (setPublic cache dgst).2) := by
  refine ⟨setPublic_of_hasPublic cache dgst, ?_, ?_⟩
  · intro hfalse
    have hstep := setPublic_snd_of_not_hasPublic cache dgst hfalse
    refine ⟨by rw [hstep], ?_, ?_⟩
    · rw [hstep]
      exact lookupA_insertA_self _ _ _
    · intro e he
      rw [hstep]
      exact lookupA_insertA_ne _ _ _ _ he
  · exact setPublic_of_hasPublic _ _ (hasPublicTag_setPublic_self cache dgst)

theorem setPublic_idempotent_witness :
    (setPublic ([] : DescCache) dgst0).1 = true ∧
    setPublic (setPublic ([] : DescCache) dgst0).2 dgst0 =
      (false, (setPublic ([] : DescCache) dgst0).2) :=
  ⟨((setPublic_idempotent ([] : DescCache) dgst0).2.1 (by decide)).1,
   (setPublic_idempotent ([] : DescCache) dgst0).2.2⟩

/-- Claim C2: the startup scan setBlobsPublic leaves every enumerated blob
with a "public" annotations entry in the descriptor cache; a blob that had
no such entry before the scan ends with the annotations map exactly
public=true, so previously cached content becomes auto-mount eligible. -/
theorem setBlobsPublic_marks_all (cache : DescCache) (blobs : List Digest) (d : Digest)
    (hmem : d ∈ blobs) :
    hasPublicTag (setBlobsPublic cache blobs) d = true ∧
    (hasPublicTag cache d = false →
      lookupA (setBlobsPublic cache blobs) d =
        some { cachedDesc cache d with annotations := [("public", "true")] }) :=
  ⟨setBlobsPublic_mem_hasPublic blobs d cache hmem,
   fun hfalse => setBlobsPublic_mem_fresh blobs d cache hmem hfalse⟩

theorem setBlobsPublic_marks_all_witness :
    hasPublicTag (setBlobsPublic [] [dgst0]) dgst0 = true ∧
    lookupA (setBlobsPublic [] [dgst0]) dgst0 =
      some { cachedDesc [] dgst0 with annotations := [("public", "true")] } := by
  have h := setBlobsPublic_marks_all [] [dgst0] dgst0 (by simp)
  exact ⟨h.1, h.2 (by decide)⟩

/-- Claim C3: tryEstablishChallenges returns success without pinging when
the manager already holds a non-empty challenge set for the upstream URL at
path /v2/; otherwise it issues the ping, and a ping failure is returned to
the caller unchanged. -/
theorem tryEstablishChallenges_spec (r : RemoteAuthChallenger)
    (pingResult : Except String (List Challenge)) :
    (getChallenges r.cm { r.remoteURL with path := "/v2/" } ≠ [] →
      tryEstablishChallenges r pingResult = (Except.ok (), false, r)) ∧
    (getChallenges r.cm { r.remoteURL with path := "/v2/" } = [] →
      (tryEstablishChallenges r pingResult).2.1 = true ∧
      ∀ e, pingResult = Except.error e →
        tryEstablishChallenges r pingResult = (Except.error e, true, r)) := by
  constructor
  · intro h
    have hlen : 0 < (getChallenges r.cm { r.remoteURL with path := "/v2/" }).length :=
      List.length_pos.mpr h
    simp [tryEstablishChallenges, hlen]
  · intro h
    constructor
    · cases pingResult <;> simp [tryEstablishChallenges, h]
    · intro e he
      subst he
      simp [tryEstablishChallenges, h]

theorem tryEstablishChallenges_spec_witness :
    tryEstablishChallenges rKnown (Except.error "boom") = (Except.ok (), false, rKnown) ∧
    tryEstablishChallenges rEmpty (Except.error "boom") = (Except.error "boom", true, rEmpty) :=
  ⟨(tryEstablishChallenges_spec rKnown (Except.error "boom")).1 (by decide),
   ((tryEstablishChallenges_spec rEmpty (Except.error "boom")).2 (by decide)).2 "boom" rfl⟩

/-- Claim C4: both expiry callbacks reject non-canonical references with an
error (an error result applies no state change); on a canonical reference
the blob callback removes the repository link, the descriptor-cache entries
and the backing-storage content, leaving manifests untouched, and the
manifest callback removes the manifest, leaving blob state untouched. -/
theorem expiryCallbacks_spec (st : LocalRegistry) (repo : String) (dgst : Digest)
    (tag : String) :
    (∃ e, onBlobExpire st (.tagged repo tag) = Except.error e) ∧
    (∃ e, onManifestExpire st (.tagged repo tag) = Except.error e) ∧
    ((repo, dgst) ∈ st.blobLinks →
      ∃ st1, onBlobExpire st (.canonical repo dgst) = Except.ok st1 ∧
        (repo, dgst) ∉ st1.blobLinks ∧
        (∀ desc, ((repo, dgst), desc) ∉ st1.blobDescCache) ∧
        dgst ∉ st1.storageBlobs ∧
        st1.manifests = st.manifests) ∧
    ((repo, dgst) ∈ st.manifests →
      ∃ st1, onManifestExpire st (.canonical repo dgst) = Except.ok st1 ∧
        (repo, dgst) ∉ st1.manifests ∧
        st1.blobLinks = st.blobLinks ∧ st1.storageBlobs = st.storageBlobs ∧
        st1.blobDescCache = st.blobDescCache) := by
  refine ⟨⟨"unexpected reference type", rfl⟩, ⟨"unexpected reference type", rfl⟩, ?_, ?_⟩
  · intro h
    refine ⟨{ st with
        blobLinks := st.blobLinks.filter (fun p => p ≠ (repo, dgst)),
        blobDescCache := st.blobDescCache.filter (fun p => p.1 ≠ (repo, dgst)),
        storageBlobs := st.storageBlobs.filter (fun d => d ≠ dgst) }, ?_, ?_, ?_, ?_, rfl⟩
    · simp [onBlobExpire, blobsDelete, vacuumRemoveBlob, h]
    · simp [List.mem_filter]
    · intro desc
      simp [List.mem_filter]
    · simp [List.mem_filter]
  · intro h
    refine ⟨{ st with manifests := st.manifests.filter (fun p => p ≠ (repo, dgst)) },
      ?_, ?_, rfl, rfl, rfl⟩
    · simp [onManifestExpire, manifestsDelete, h]
    · simp [List.mem_filter]

theorem expiryCallbacks_spec_witness :
    (∃ e, onBlobExpire reg0 (.tagged "foo" "latest") = Except.error e) ∧
    (∃ st1, onBlobExpire reg0 (.canonical "foo" dgst0) = Except.ok st1 ∧
      ("foo", dgst0) ∉ st1.blobLinks ∧ dgst0 ∉ st1.storageBlobs) ∧
    (∃ st1, onManifestExpire reg0 (.canonical "foo" dgst0) = Except.ok st1 ∧
      ("foo", dgst0) ∉ st1.manifests) := by
  have h := expiryCallbacks_spec reg0 "foo" dgst0 "latest"
  refine ⟨h.1, ?_, ?_⟩
  · obtain ⟨st1, h1, h2, h3, h4, h5⟩ := h.2.2.1 (by decide)
    exact ⟨st1, h1, h2, h4⟩
  · obtain ⟨st1, h1, h2, h3⟩ := h.2.2.2 (by decide)
    exact ⟨st1, h1, h2⟩

/-- Claim C7: the Repository constructor builds token handler options whose
scope list is exactly the single repository scope for the name with the
single action pull, and wires the per-repository blob, manifest and tag
services to the shared scheduler and shared auth challenger. -/
theorem mkRepository_wiring (pr : ProxyingRegistryCfg) (name : String) :
    (mkRepository pr name).1.scopes = [{ repository := name, actions := ["pull"] }] ∧
    (mkRepository pr name).1.credentials = pr.challengerCredentials ∧
    (mkRepository pr name).2.blobStore.scheduler = pr.scheduler ∧
    (mkRepository pr name).2.blobStore.authChallenger = pr.authChallenger ∧
    (mkRepository pr name).2.blobStore.repositoryName = name ∧
    (mkRepository pr name).2.blobStore.localStore = ServiceRef.localBlobs pr.embedded name ∧
    (mkRepository pr name).2.blobStore.remoteStore = ServiceRef.remoteBlobs pr.remoteURL name ∧
    (mkRepository pr name).2.manifests.scheduler = pr.scheduler ∧
    (mkRepository pr name).2.manifests.authChallenger = pr.authChallenger ∧
    (mkRepository pr name).2.tags.authChallenger = pr.authChallenger ∧
    (mkRepository pr name).2.name = name :=
  ⟨rfl, rfl, rfl, rfl, rfl, rfl, rfl, rfl, rfl, rfl, rfl⟩

/-- Claim C6: committing an upload of any byte string B with its own digest
yields a descriptor whose digest is the digest of B and whose size is the
length of B, and Open on that digest returns exactly B. -/
theorem uploadCommit_roundtrip (st : BlobStoreState) (repo : String) (bytes : List Nat) :
    ∃ desc st1,
      uploadCommit st repo bytes (hashBytes bytes) = Except.ok (desc, st1) ∧
      desc.digest = hashBytes bytes ∧
      desc.size = bytes.length ∧
      openBlob st1 repo desc.digest = Except.ok bytes := by
  refine ⟨canonicalDesc (hashBytes bytes) bytes,
    { contents := insertA st.contents (hashBytes bytes) bytes,
      links := (repo, hashBytes bytes) :: st.links,
      publicCache := st.publicCache }, ?_, rfl, rfl, ?_⟩
  · simp [uploadCommit]
  · simp [openBlob, canonicalDesc, lookupA_insertA_self, List.mem_cons]

/-- Claim C5: a blob committed under repository A and marked public=true
mounts into repository R with the ErrBlobMounted sentinel carrying the
original committed descriptor, and afterwards the blob is readable under
both names with byte-identical content whose digest is the original
digest. -/
theorem mountPublicBlob_spec (st : BlobStoreState) (repoA repoR : String) (bytes : List Nat)
    (hfresh : lookupA st.publicCache (hashBytes bytes) = none) :
    ∃ desc st1 st2,
      uploadCommit st repoA bytes (hashBytes bytes) = Except.ok (desc, st1) ∧
      createWithMount (markPublic st1 (hashBytes bytes)) repoR (hashBytes bytes) =
        MountOutcome.mounted desc st2 ∧
      desc = canonicalDesc (hashBytes bytes) bytes ∧
      openBlob st2 repoA (hashBytes bytes) = Except.ok bytes ∧
      openBlob st2 repoR (hashBytes bytes) = Except.ok bytes ∧
      statBlob st2 repoA (hashBytes bytes) = Except.ok desc ∧
      statBlob st2 repoR (hashBytes bytes) = Except.ok desc := by
  have hfalse : hasPublicTag st.publicCache (hashBytes bytes) = false := by
    simp [hasPublicTag, cachedDesc, hfresh, lookupA, Descriptor.empty]
  have hcd : cachedDesc st.publicCache (hashBytes bytes) = Descriptor.empty := by
    simp [cachedDesc, hfresh]
  have hset := setPublic_snd_of_not_hasPublic st.publicCache (hashBytes bytes) hfalse
  rw [hcd] at hset
  refine ⟨canonicalDesc (hashBytes bytes) bytes,
    { contents := insertA st.contents (hashBytes bytes) bytes,
      links := (repoA, hashBytes bytes) :: st.links,
      publicCache := st.publicCache },
    { contents := insertA st.contents (hashBytes bytes) bytes,
      links := (repoR, hashBytes bytes) :: (repoA, hashBytes bytes) :: st.links,
      publicCache := insertA st.publicCache (hashBytes bytes)
        { Descriptor.empty with annotations := [("public", "true")] } },
    ?_, ?_, rfl, ?_, ?_, ?_, ?_⟩
  · simp [uploadCommit]
  · simp [markPublic, createWithMount, isPublicBlob, hset, lookupA_insertA_self, lookupA]
  · simp [openBlob, lookupA_insertA_self, List.mem_cons]
  · simp [openBlob, lookupA_insertA_self, List.mem_cons]
  · simp [statBlob, canonicalDesc, lookupA_insertA_self, List.mem_cons]
  · simp [statBlob, canonicalDesc, lookupA_insertA_self, List.mem_cons]

theorem mountPublicBlob_spec_witness :
    ∃ desc st1 st2,
      uploadCommit emptyStore "foo" [1, 2, 3] (hashBytes [1, 2, 3]) = Except.ok (desc, st1) ∧
      createWithMount (markPublic st1 (hashBytes [1, 2, 3])) "bar" (hashBytes [1, 2, 3]) =
        MountOutcome.mounted desc st2 ∧
      desc = canonicalDesc (hashBytes [1, 2, 3]) [1, 2, 3] ∧
      openBlob st2 "foo" (hashBytes [1, 2, 3]) = Except.ok [1, 2, 3] ∧
      openBlob st2 "bar" (hashBytes [1, 2, 3]) = Except.ok [1, 2, 3] ∧
      statBlob st2 "foo" (hashBytes [1, 2, 3]) = Except.ok desc ∧
      statBlob st2 "bar" (hashBytes [1, 2, 3]) = Except.ok desc :=
  mountPublicBlob_spec emptyStore "foo" "bar" [1, 2, 3] rfl

/-- Claim C8: after a blob is linked in both a source and a destination
repository, deleting it from the source leaves Stat succeeding in the
destination while Stat in the source returns ErrBlobUnknown; only after
also deleting it from the destination does Stat there return
ErrBlobUnknown. -/
theorem mountedBlobDeletion_spec (st : BlobStoreState) (repoA repoR : String)
    (dgst : Digest) (bytes : List Nat)
    (hAR : repoA ≠ repoR)
    (hcontent : lookupA st.contents dgst = some bytes)
    (hlinkA : (repoA, dgst) ∈ st.links)
    (hlinkR : (repoR, dgst) ∈ st.links) :
    ∃ st1, deleteBlob st repoA dgst = Except.ok st1 ∧
      statBlob st1 repoR dgst = Except.ok (canonicalDesc dgst bytes) ∧
      statBlob st1 repoA dgst = Except.error .blobUnknown ∧
      ∃ st2, deleteBlob st1 repoR dgst = Except.ok st2 ∧
        statBlob st2 repoR dgst = Except.error .blobUnknown := by
  have hRA : ((repoR, dgst) : String × Digest) ≠ (repoA, dgst) := by
    intro h
    injection h with h1 h2
    exact hAR h1.symm
  have hmemR1 : (repoR, dgst) ∈ st.links.filter (fun p => p ≠ (repoA, dgst)) := by
    simp [List.mem_filter, hlinkR, hRA]
  have hmemA1 : (repoA, dgst) ∉ st.links.filter (fun p => p ≠ (repoA, dgst)) := by
    simp [List.mem_filter]
  refine ⟨{ st with links := st.links.filter (fun p => p ≠ (repoA, dgst)) }, ?_, ?_, ?_,
    { st with links := ((st.links.filter (fun p => p ≠ (repoA, dgst))).filter (fun p => p ≠ (repoR, dgst))) }, ?_, ?_⟩
  · simp [deleteBlob, hlinkA]
  · have hARs : ¬ repoR = repoA := fun he => hAR he.symm
    simp [statBlob, List.mem_filter, hlinkR, hARs, hcontent]
  · simp [statBlob, hmemA1]
  · have hARs : ¬ repoR = repoA := fun he => hAR he.symm
    simp [deleteBlob, List.mem_filter, hlinkR, hARs]
  · simp [statBlob, List.mem_filter]

theorem mountedBlobDeletion_spec_witness :
    ∃ st1, deleteBlob storeC8 "foo" dgst0 = Except.ok st1 ∧
      statBlob st1 "bar" dgst0 = Except.ok (canonicalDesc dgst0 [1]) ∧
      statBlob st1 "foo" dgst0 = Except.error .blobUnknown ∧
      ∃ st2, deleteBlob st1 "bar" dgst0 = Except.ok st2 ∧
        statBlob st2 "bar" dgst0 = Except.error .blobUnknown :=
  mountedBlobDeletion_spec storeC8 "foo" "bar" dgst0 [1]
    (by decide) (by decide) (by decide) (by decide)

end DistributionProxy
